import Mathlib

/-!
Verification of the NL2SQL API core (`app/main.py`, `app/llm.py`, `app/db.py`).

Strings are embedded as `List Char`.  The embedding is exact for ASCII text:
`str.strip` / `\s` use the ASCII whitespace set, `str.lower` lowers `A`..`Z`,
and the `\b` word boundary of `re` treats `[A-Za-z0-9_]` as word characters.
-/

namespace NL2SQL

/-- ASCII whitespace, the character class stripped by Python `str.strip()`
and matched by `\s` (space, tab, newline, carriage return, vertical tab,
form feed). -/
def isPySpace (c : Char) : Bool :=
  c = ' ' || c = '\t' || c = '\n' || c = '\r' || c = '\x0b' || c = '\x0c'

/-- Word characters for the `\b` boundary of Python's `re` (ASCII view):
letters, digits and underscore. -/
def isWordChar (c : Char) : Bool :=
  c.isAlphanum || c = '_'

/-- Python `str.lower()` (ASCII view). -/
def pyLower (l : List Char) : List Char :=
  l.map Char.toLower

/-- Python `str.strip()`: remove whitespace from both ends. -/
def pyStrip (l : List Char) : List Char :=
  List.rdropWhile isPySpace (l.dropWhile isPySpace)

/-- Python `str.rstrip(";")`: remove every trailing semicolon. -/
def rstripSemi (l : List Char) : List Char :=
  List.rdropWhile (fun c => c = ';') l

/-- Does `re.search(r"\blimit\b", ..., re.IGNORECASE)` match at the head of
`l`, given whether the character just before `l` is a word character
(`prev`)?  Requires the five characters `limit` (any case) at the head,
a non-word character before and a non-word character (or the end) after. -/
def limitHere (prev : Bool) (l : List Char) : Bool :=
  !prev &&
    match l with
    | a :: b :: c :: d :: e :: rest =>
        [a, b, c, d, e].map Char.toLower = ['l', 'i', 'm', 'i', 't'] &&
          (match rest with
           | [] => true
           | x :: _ => !isWordChar x)
    | _ => false

/-- Scan for a whole-word `limit` match, tracking whether the previous
character was a word character. -/
def hasLimitAux (prev : Bool) : List Char → Bool
  | [] => false
  | c :: rest => limitHere prev (c :: rest) || hasLimitAux (isWordChar c) rest

/-- `re.search(r"\blimit\b", l, re.IGNORECASE) is not None`. -/
def hasLimitToken (l : List Char) : Bool :=
  hasLimitAux false l

/-- Python's `needle in hay` substring test on embedded strings. -/
def containsSub (needle : List Char) : List Char → Bool
  | [] => needle.isEmpty
  | c :: rest => needle.isPrefixOf (c :: rest) || containsSub needle rest

/-- `DEFAULT_LIMIT = 100` (`app/main.py`). -/
def DEFAULT_LIMIT : Nat := 100

/-- `TABLE_NAME = "ds_active"` (`app/db.py`). -/
def TABLE_NAME : List Char := "ds_active".data

/-- `ensure_limit` (`app/main.py`).  All call sites use the default
`default_limit = DEFAULT_LIMIT = 100`, which is inlined here.

    strippedRequest = sql.strip().rstrip(";")
    if re.search(r"\blimit\b", strippedRequest, flags=re.IGNORECASE):
        return strippedRequest + ";"
    return f"{strippedRequest} LIMIT {default_limit};"
-/
def ensure_limit (sql : List Char) : List Char :=
  let strippedRequest := rstripSemi (pyStrip sql)
  if hasLimitToken strippedRequest then strippedRequest ++ [';']
  else strippedRequest ++ (" LIMIT ".data ++ (toString DEFAULT_LIMIT).data ++ [';'])

/-- The blocklist of `is_safe_select` (`app/main.py`). -/
def blocked : List (List Char) :=
  ["insert".data, "update".data, "delete".data, "drop".data, "alter".data,
   "create".data, "attach".data, "copy".data, "pragma".data, "install".data,
   "load".data, "export".data]

/-- `is_safe_select` (`app/main.py`):

    s = sql.strip().lower()
    if not s.startswith("select"):
        return False
    blocked = [...]
    return not any(word in s for word in blocked)
-/
def is_safe_select (sql : List Char) : Bool :=
  let s := pyLower (pyStrip sql)
  if !("select".data.isPrefixOf s) then false
  else !(blocked.any fun word => containsSub word s)

/-- `references_only_allowed_table` (`app/main.py`):

    lowerCaseRequest = sql.lower()
    return allowed_table.lower() in lowerCaseRequest
-/
def references_only_allowed_table (sql allowed_table : List Char) : Bool :=
  containsSub (pyLower allowed_table) (pyLower sql)

/-! ### `extract_json` (`app/llm.py`)

`json.loads` is the Python standard library; it is kept abstract as a
`parse` parameter (`List Char → Option PyJson`, `none` = decode error).
The three `re.sub` calls are anchored (`^` resp. `$`); since the text was
stripped first and the head substitutions do not touch the tail, the text
reaching the `$`-anchored substitution never ends in whitespace, so `$` is
exactly the end of the string. -/

/-- A Python value produced by `json.loads`: JSON null, booleans, numbers
(kept abstract as an integer code), strings, arrays and objects. -/
inductive PyJson where
  | null : PyJson
  | bool : Bool → PyJson
  | num : Int → PyJson
  | str : List Char → PyJson
  | arr : List PyJson → PyJson
  | obj : List (List Char × PyJson) → PyJson

/-- `re.sub(r"^```json\s*", "", t, flags=re.IGNORECASE)`:  if `t` opens
with three backticks and `json` (any case), remove them and the following
whitespace run. -/
def stripFenceJsonHead (t : List Char) : List Char :=
  match t with
  | '\x60' :: '\x60' :: '\x60' :: a :: b :: c :: d :: rest =>
      if [a, b, c, d].map Char.toLower = ['j', 's', 'o', 'n'] then
        rest.dropWhile isPySpace
      else t
  | _ => t

/-- `re.sub(r"^```\s*", "", t)`: if `t` opens with three backticks, remove
them and the following whitespace run. -/
def stripFenceHead (t : List Char) : List Char :=
  match t with
  | '\x60' :: '\x60' :: '\x60' :: rest => rest.dropWhile isPySpace
  | _ => t

/-- `re.sub(r"\s*```$", "", t)` for text with no trailing whitespace: if
`t` ends with three backticks, remove them and the whitespace run before
them. -/
def stripFenceTail (t : List Char) : List Char :=
  match t.reverse with
  | '\x60' :: '\x60' :: '\x60' :: restRev => (restRev.dropWhile isPySpace).reverse
  | _ => t

/-- `re.search(r"\{.*\}", t, flags=re.DOTALL)`: with the greedy `.*`, the
match (if any) runs from the first `\x7b` of `t` to the last `\x7d`, which
must lie strictly after it. -/
def braceSpan (t : List Char) : Option (List Char) :=
  let after := t.dropWhile (fun c => c ≠ '\x7b')
  let span := (after.reverse.dropWhile (fun c => c ≠ '\x7d')).reverse
  if span.isEmpty then none else some span

/-- The fence-stripping prefix of `extract_json`: the candidate text handed
to `json.loads`, or `none` when the `ValueError("No JSON object found in
model output.")` branch is taken. -/
def extract_candidate (text : List Char) : Option (List Char) :=
  let t := pyStrip text
  let t := stripFenceJsonHead t
  let t := stripFenceHead t
  let t := stripFenceTail t
  if t.take 1 = ['\x7b'] then some t
  else braceSpan t

/-- `extract_json` (`app/llm.py`), with `json.loads` abstracted as
`parse`; `none` covers both failure modes (no object found / decode
error), both of which raise a `ValueError` in the source. -/
def extract_json (parse : List Char → Option PyJson) (text : List Char) :
    Option PyJson :=
  (extract_candidate text).bind parse

/-! ### `app/db.py`: sidecar metadata and `get_active_schema`

The filesystem and DuckDB are external: the metadata file content is a
`DbFiles` field (`none` = file absent), `json.loads` is the abstract
`parse` parameter, and the `DESCRIBE` / `COUNT(*)` answers are passed in
as `columns` / `row_count`. -/

/-- Python truthiness (`if not v:`) of a value retrieved with `.get`
(`none` is Python `None`). -/
def pyTruthy : Option PyJson → Bool
  | none => false
  | some .null => false
  | some (.bool b) => b
  | some (.num n) => n ≠ 0
  | some (.str s) => !s.isEmpty
  | some (.arr a) => !a.isEmpty
  | some (.obj o) => !o.isEmpty

/-- The uncaught Python exceptions this model tracks. -/
inductive PyError where
  | attributeError : PyError
deriving DecidableEq

/-- Python `meta.get(k)`: key lookup on a dict, `AttributeError` when the
value is not a dict (e.g. `json.loads` returned a list or a scalar). -/
def dictGet (j : PyJson) (k : List Char) : Except PyError (Option PyJson) :=
  match j with
  | .obj kvs => .ok ((kvs.find? fun kv => kv.1 = k).map Prod.snd)
  | _ => .error .attributeError

/-- Python `v == "lit"`: true only for the equal string (cross-type `==`
is `False`). -/
def pyEqStr (j : PyJson) (s : List Char) : Bool :=
  match j with
  | .str t => t = s
  | _ => false

/-- `ACTIVE_CSV.name` (`app/db.py`). -/
def ACTIVE_CSV_NAME : List Char := "active.csv".data

/-- `SAMPLE_CSV.name` (`app/db.py`). -/
def SAMPLE_CSV_NAME : List Char := "savant_data.csv".data

/-- The filesystem state `app/db.py` consults. -/
structure DbFiles where
  metaContent : Option (List Char)
  activeCsvExists : Bool

/-- `_read_active_metadata` (`app/db.py`):

    if not ACTIVE_META.exists():
        return {}
    try:
        return json.loads(ACTIVE_META.read_text(encoding="utf-8"))
    except json.JSONDecodeError:
        return {}
-/
def read_active_metadata (parse : List Char → Option PyJson) (fs : DbFiles) :
    PyJson :=
  match fs.metaContent with
  | none => .obj []
  | some txt =>
    match parse txt with
    | some j => j
    | none => .obj []

/-- The value returned by `get_active_schema` on success. -/
structure SchemaResult where
  table : List Char
  row_count : Nat
  source : PyJson
  filename : PyJson
  columns : List (List Char × List Char)

/-- `get_active_schema` (`app/db.py`), with the two DuckDB reads passed in
as `columns` and `row_count`:

    meta = _read_active_metadata()
    source = meta.get("source")
    filename = meta.get("filename")
    if not source:
        source = "upload" if ACTIVE_CSV.exists() else "demo"
    if not filename:
        filename = ACTIVE_CSV.name if source == "upload" else SAMPLE_CSV.name
    return {"table": ..., "row_count": ..., "source": source,
            "filename": filename, "columns": columns}
-/
def get_active_schema (parse : List Char → Option PyJson) (fs : DbFiles)
    (columns : List (List Char × List Char)) (row_count : Nat) :
    Except PyError SchemaResult := do
  let meta := read_active_metadata parse fs
  let sourceOpt ← dictGet meta "source".data
  let filenameOpt ← dictGet meta "filename".data
  let source : PyJson :=
    if pyTruthy sourceOpt then sourceOpt.getD .null
    else if fs.activeCsvExists then .str "upload".data
    else .str "demo".data
  let filename : PyJson :=
    if pyTruthy filenameOpt then filenameOpt.getD .null
    else if pyEqStr source "upload".data then .str ACTIVE_CSV_NAME
    else .str SAMPLE_CSV_NAME
  return ⟨TABLE_NAME, row_count, source, filename, columns⟩

/-! ### `app/main.py`: the `/query` and `/query/retry` operations

`QUERY_STORE` is a dict keyed by the opaque query id, embedded as a
function `String → Option Pending` (every stored entry is a non-empty
dict, so `if not saved:` coincides with absence).  The `uuid4` id, the
`schema_as_text()` result, the generator (`generate_sql` / `repair_sql`)
and the DuckDB execution are external and passed in as parameters.  The
generator oracles return the `llm.get("sql")` field of the parsed model
output; `usableSql` embeds the source's
`isinstance(sql, str) and sql.strip()` check. -/

/-- One `QUERY_STORE` entry. -/
structure Pending where
  question : List Char
  sql : List Char
  error : List Char
  schema : List Char
deriving DecidableEq

/-- The `QUERY_STORE` dict. -/
def Store : Type := String → Option Pending

/-- `isinstance(sql, str) and sql.strip()`: the usable SQL string of a
model output's `sql` field, if any. -/
def usableSql : Option PyJson → Option (List Char)
  | some (.str s) => if (pyStrip s).isEmpty then none else some s
  | _ => none

/-- A successful DuckDB execution: column names and rows (after the
source's `if cur.description` / `if cols` gating). -/
structure ExecOk where
  cols : List (List Char)
  rows : List (List PyJson)

/-- Outcome of the `/query` endpoint. -/
inductive QueryResult where
  | invalidModelSql : QueryResult
  | unsafeSqlFail (sql : List Char) : QueryResult
  | wrongTableFail (sql : List Char) : QueryResult
  | execFail (sql : List Char) (msg : List Char) : QueryResult
  | success (sql : List Char) (cols : List (List Char))
      (rows : List (List PyJson)) : QueryResult

/-- The `ok` field of the `/query` response (`invalidModelSql` is an
`HTTPException`, carrying no body fields). -/
def QueryResult.okField : QueryResult → Bool
  | .success _ _ _ => true
  | _ => false

/-- The `retryable` field of the `/query` response: `True` in each of the
three `ok: False` response bodies. -/
def QueryResult.retryableField : QueryResult → Bool
  | .unsafeSqlFail _ => true
  | .wrongTableFail _ => true
  | .execFail _ _ => true
  | _ => false

/-- The `/query` endpoint (`app/main.py`, `query`). -/
def query (genOracle : List Char → List Char → Option PyJson)
    (exec : List Char → Except (List Char) ExecOk)
    (store : Store) (query_id : String) (schema_text question : List Char) :
    QueryResult × Store :=
  match usableSql (genOracle schema_text question) with
  | none => (.invalidModelSql, store)
  | some sql =>
    if !is_safe_select sql then (.unsafeSqlFail sql, store)
    else if !references_only_allowed_table sql TABLE_NAME then
      (.wrongTableFail sql, store)
    else
      let sql := ensure_limit sql
      match exec sql with
      | .error e =>
          (.execFail sql e,
           fun k => if k = query_id then some ⟨question, sql, e, schema_text⟩
                    else store k)
      | .ok r => (.success sql r.cols r.rows, store)

/-- Outcome of the `/query/retry` endpoint. -/
inductive RetryResult where
  | unknownQueryId : RetryResult
  | invalidRepairSql : RetryResult
  | unsafeRepairSql : RetryResult
  | wrongTableRepairSql : RetryResult
  | execError (msg : List Char) : RetryResult
  | success (sql : List Char) (cols : List (List Char))
      (rows : List (List PyJson)) : RetryResult

/-- The `/query/retry` endpoint (`app/main.py`, `retry`).  `repairOracle`
takes `schema_text`, `question`, `last_sql`, `error_message` (the
arguments of `repair_sql`) and yields the parsed output's `sql` field. -/
def retry
    (repairOracle : List Char → List Char → List Char → List Char → Option PyJson)
    (exec : List Char → Except (List Char) ExecOk)
    (store : Store) (query_id : String) : RetryResult × Store :=
  match store query_id with
  | none => (.unknownQueryId, store)
  | some saved =>
    match usableSql (repairOracle saved.schema saved.question saved.sql saved.error) with
    | none => (.invalidRepairSql, store)
    | some sql =>
      if !is_safe_select sql then (.unsafeRepairSql, store)
      else if !references_only_allowed_table sql TABLE_NAME then
        (.wrongTableRepairSql, store)
      else
        let sql := ensure_limit sql
        match exec sql with
        | .error e =>
            (.execError e,
             fun k => if k = query_id then
                        some ⟨saved.question, sql, e, saved.schema⟩
                      else store k)
        | .ok r =>
            (.success sql r.cols r.rows,
             fun k => if k = query_id then none else store k)

/-! ### Definitions following the claims' words, for refinement comparison -/

/-- Claim C1's words: strip a single trailing semicolon (one at most). -/
def stripOneSemi (l : List Char) : List Char :=
  match l.reverse with
  | ';' :: restRev => restRev.reverse
  | _ => l

/-- Claim C1 as stated: strip a single trailing semicolon; then, if a
whole-word `limit` token is present, re-append exactly one trailing
semicolon and return the content otherwise unchanged, else append a
space, `LIMIT 100`, and a trailing semicolon. -/
def ensure_limit_claimC1 (sql : List Char) : List Char :=
  let t := stripOneSemi sql
  if hasLimitToken sql then t ++ [';']
  else t ++ " LIMIT 100;".data

/-- Claim C1 as amended: strip leading and trailing whitespace and every
trailing semicolon; if the original string has a whole-word
case-insensitive `limit` token append exactly one semicolon, else append
a space, `LIMIT 100`, and a semicolon. -/
def ensure_limit_amendedC1 (sql : List Char) : List Char :=
  let t := rstripSemi (pyStrip sql)
  if hasLimitToken sql then t ++ [';']
  else t ++ " LIMIT 100;".data

/-- Scanner for claim C8's words: consume text at nesting `depth` inside
braces, returning the accumulated balanced span once depth returns to
zero. -/
def balGo : List Char → Nat → List Char → Option (List Char)
  | [], _, _ => none
  | c :: rest, depth, acc =>
      if c = '\x7d' then
        if depth = 1 then some (acc ++ [c]) else balGo rest (depth - 1) (acc ++ [c])
      else if c = '\x7b' then balGo rest (depth + 1) (acc ++ [c])
      else balGo rest depth (acc ++ [c])

/-- Claim C8's words: the first balanced `\x7b...\x7d` span of the text. -/
def firstBalancedSpan (t : List Char) : Option (List Char) :=
  match t.dropWhile (fun c => c ≠ '\x7b') with
  | [] => none
  | c :: rest => balGo rest 1 [c]

/-- Claim C8 as stated: fence-strip, then parse the text itself when it
opens with `\x7b`, else the first balanced `\x7b...\x7d` span. -/
def extract_candidate_claimC8 (text : List Char) : Option (List Char) :=
  let t := pyStrip text
  let t := stripFenceJsonHead t
  let t := stripFenceHead t
  let t := stripFenceTail t
  if t.take 1 = ['\x7b'] then some t
  else firstBalancedSpan t

/-- Claim C8 as amended: the span runs from the first `\x7b` to the last
`\x7d` of the whole text (the greedy `re` match), stated by index. -/
def spanFirstToLastSpec (t : List Char) : Option (List Char) :=
  let i := t.findIdx (fun c => c = '\x7b')
  let j := t.reverse.findIdx (fun c => c = '\x7d')
  if i + j + 1 < t.length then some ((t.drop i).take (t.length - j - i))
  else none

/-! ### Concrete fixtures used by the witness theorems -/

/-- A stored pending entry used in witnesses. -/
def wPending : Pending :=
  ⟨"list the rows".data, "select zz from ds_active".data,
   "Binder Error".data, "Table: ds_active".data⟩

/-- A store holding `wPending` under the id `q_1`. -/
def wStore : Store := fun k => if k = "q_1" then some wPending else none

/-- A safe, table-scoped SELECT statement used in witnesses. -/
def goodSql : List Char := "select x from ds_active".data

/-- A repair oracle answering with `goodSql`. -/
def wRepair : List Char → List Char → List Char → List Char → Option PyJson :=
  fun _ _ _ _ => some (.str goodSql)

/-- A repair oracle whose output lacks a usable `sql` string. -/
def wRepairNone : List Char → List Char → List Char → List Char → Option PyJson :=
  fun _ _ _ _ => none

/-- A generation oracle answering with `goodSql`. -/
def wGen : List Char → List Char → Option PyJson := fun _ _ => some (.str goodSql)

/-- A generation oracle answering with a denylisted statement. -/
def wGenUnsafe : List Char → List Char → Option PyJson :=
  fun _ _ => some (.str "drop table ds_active".data)

/-- An execution backend that always succeeds. -/
def wExecOk : List Char → Except (List Char) ExecOk :=
  fun _ => .ok ⟨["x".data], [[.num 1]]⟩

/-- An execution backend that always fails. -/
def wExecErr : List Char → Except (List Char) ExecOk :=
  fun _ => .error "Binder Error: column".data

/-- The empty store. -/
def wEmpty : Store := fun _ => none

/-- A raw JSON object text used in witnesses. -/
def rawJson : List Char := "\x7b\"sql\":\"SELECT 1\"\x7d".data

/-- Text with no JSON object, used in witnesses. -/
def noObjText : List Char := "no object here".data

/-! ## Supporting lemmas -/

theorem containsSub_iff (w l : List Char) : containsSub w l = true ↔ w <:+: l := by
  induction l with
  | nil => simp [containsSub, List.isEmpty_iff]
  | cons c rest ih => simp [containsSub, ih, List.infix_cons_iff]

theorem isPySpace_toLower {c : Char} (h : isPySpace c = true) : Char.toLower c = c := by
  simp only [isPySpace, Bool.or_eq_true, decide_eq_true_eq] at h
  rcases h with ((((h|h)|h)|h)|h)|h <;> subst h <;> decide

theorem infix_lower_dropWhile (w : List Char) (hne : w ≠ [])
    (hw : ∀ c ∈ w, isPySpace c = false) :
    ∀ s : List Char, w <:+: pyLower s → w <:+: pyLower (s.dropWhile isPySpace) := by
  intro s
  induction s with
  | nil => simp
  | cons c rest ih =>
      intro h
      rw [List.dropWhile_cons]
      by_cases hc : isPySpace c
      · rw [if_pos hc]
        apply ih
        rw [pyLower, List.map_cons] at h
        rcases List.infix_cons_iff.mp h with hpre | hinf
        · obtain ⟨t, ht⟩ := hpre
          cases w with
          | nil => exact absurd rfl hne
          | cons a w' =>
              rw [List.cons_append] at ht
              injection ht with h1 _
              have ha : isPySpace a = false := hw a (by simp)
              rw [h1, isPySpace_toLower hc] at ha
              rw [hc] at ha
              exact absurd ha (by simp)
        · exact hinf
      · rw [if_neg hc]
        exact h

theorem infix_lower_strip (w : List Char) (hne : w ≠ [])
    (hw : ∀ c ∈ w, isPySpace c = false)
    (s : List Char) (h : w <:+: pyLower s) : w <:+: pyLower (pyStrip s) := by
  have h1 : w <:+: pyLower (s.dropWhile isPySpace) :=
    infix_lower_dropWhile w hne hw s h
  set u := s.dropWhile isPySpace with hu
  have hrev : w.reverse <:+: pyLower u.reverse := by
    rw [pyLower, List.map_reverse]
    exact List.reverse_infix.mpr h1
  have h2 : w.reverse <:+: pyLower (u.reverse.dropWhile isPySpace) :=
    infix_lower_dropWhile w.reverse (by simpa using hne)
      (fun c hc => hw c (List.mem_reverse.mp hc)) _ hrev
  rw [pyStrip, List.rdropWhile, pyLower, List.map_reverse]
  have := List.reverse_infix.mpr h2
  simpa [pyLower] using this

theorem limitHere_head (prev : Bool) (c : Char) (l : List Char)
    (hc : Char.toLower c ≠ 'l') : limitHere prev (c :: l) = false := by
  rcases l with _ | ⟨b, _ | ⟨c2, _ | ⟨d, _ | ⟨e, rest⟩⟩⟩⟩ <;> simp [limitHere, hc]

theorem limitHere_concat (prev : Bool) (l : List Char) (c : Char)
    (hc1 : isWordChar c = false) (hc2 : Char.toLower c ≠ 't') :
    limitHere prev (l ++ [c]) = limitHere prev l := by
  rcases l with _ | ⟨a, _ | ⟨b, _ | ⟨d, _ | ⟨e, _ | ⟨f, r⟩⟩⟩⟩⟩
  · simp [limitHere]
  · simp [limitHere]
  · simp [limitHere]
  · simp [limitHere]
  · simp [limitHere, hc2]
  · rcases r with _ | ⟨y, r'⟩ <;> simp [limitHere, hc1]

theorem hasLimitAux_concat (l : List Char) (c : Char) (prev : Bool)
    (hc1 : isWordChar c = false) (hc2 : Char.toLower c ≠ 't') :
    hasLimitAux prev (l ++ [c]) = hasLimitAux prev l := by
  induction l generalizing prev with
  | nil => simp [hasLimitAux, limitHere]
  | cons x xs ih =>
      rw [List.cons_append, hasLimitAux, hasLimitAux]
      rw [← List.cons_append, limitHere_concat prev (x :: xs) c hc1 hc2, ih]

theorem hasLimitAux_cons (prev : Bool) (c : Char) (l : List Char)
    (hc1 : isWordChar c = false) (hl : Char.toLower c ≠ 'l') :
    hasLimitAux prev (c :: l) = hasLimitAux false l := by
  rw [hasLimitAux, limitHere_head prev c l hl, hc1]
  simp

theorem isPySpace_facts {c : Char} (h : isPySpace c = true) :
    isWordChar c = false ∧ Char.toLower c ≠ 'l' ∧ Char.toLower c ≠ 't' := by
  simp only [isPySpace, Bool.or_eq_true, decide_eq_true_eq] at h
  rcases h with ((((h|h)|h)|h)|h)|h <;> subst h <;> exact ⟨by decide, by decide, by decide⟩

theorem hasLimitToken_dropWhile (s : List Char) :
    hasLimitToken (s.dropWhile isPySpace) = hasLimitToken s := by
  induction s with
  | nil => rfl
  | cons c rest ih =>
      rw [List.dropWhile_cons]
      by_cases hc : isPySpace c
      · rw [if_pos hc, ih]
        obtain ⟨h1, h2, _⟩ := isPySpace_facts hc
        rw [hasLimitToken, hasLimitToken, hasLimitAux_cons false c rest h1 h2]
      · rw [if_neg hc]

theorem hasLimitToken_rdropWhile_space (s : List Char) :
    hasLimitToken (List.rdropWhile isPySpace s) = hasLimitToken s := by
  induction s using List.reverseRecOn with
  | nil => rfl
  | append_singleton ys y ih =>
      by_cases hy : isPySpace y
      · rw [List.rdropWhile_concat_pos _ _ y hy, ih]
        obtain ⟨h1, _, h3⟩ := isPySpace_facts hy
        rw [hasLimitToken, hasLimitToken, hasLimitAux_concat ys y false h1 h3]
      · rw [List.rdropWhile_concat_neg _ _ y hy]

theorem hasLimitToken_rstripSemi (s : List Char) :
    hasLimitToken (rstripSemi s) = hasLimitToken s := by
  rw [rstripSemi]
  induction s using List.reverseRecOn with
  | nil => rfl
  | append_singleton ys y ih =>
      by_cases hy : y = ';'
      · rw [List.rdropWhile_concat_pos _ _ y (by simp [hy]), ih]
        subst hy
        rw [hasLimitToken, hasLimitToken, hasLimitAux_concat ys ';' false (by decide) (by decide)]
      · rw [List.rdropWhile_concat_neg _ _ y (by simp [hy])]

theorem hasLimitToken_strip (s : List Char) :
    hasLimitToken (rstripSemi (pyStrip s)) = hasLimitToken s := by
  rw [hasLimitToken_rstripSemi, pyStrip, hasLimitToken_rdropWhile_space,
    hasLimitToken_dropWhile]

theorem hasLimitAux_append_LIMIT (l : List Char) (prev : Bool) :
    hasLimitAux prev (l ++ " LIMIT 100".data) = true := by
  induction l generalizing prev with
  | nil => cases prev <;> decide
  | cons c xs ih =>
      rw [List.cons_append, hasLimitAux, ih (isWordChar c), Bool.or_true]

theorem dropWhile_ne_eq_drop_findIdx (br : Char) (t : List Char) :
    t.dropWhile (fun c => c ≠ br) = t.drop (t.findIdx (fun c => c = br)) := by
  induction t with
  | nil => rfl
  | cons c rest ih =>
      by_cases hc : c = br
      · subst hc; simp [List.dropWhile_cons, List.findIdx_cons]
      · simp_all [List.dropWhile_cons, List.findIdx_cons, decide_not]

theorem braceSpan_eq_spec (t : List Char) : braceSpan t = spanFirstToLastSpec t := by
  simp only [braceSpan, spanFirstToLastSpec, dropWhile_ne_eq_drop_findIdx]
  set i := t.findIdx (fun c => c = '\x7b') with hi
  set j := t.reverse.findIdx (fun c => c = '\x7d') with hj
  have hilen : i ≤ t.length := List.findIdx_le_length _
  by_cases hbrace : i < t.length
  · have hti : t.get ⟨i, hbrace⟩ = '\x7b' := by
      have := @List.findIdx_getElem _ (fun c => c = '\x7b') t hbrace
      simpa using this
    simp only [List.get_eq_getElem] at hti
    set after := t.drop i with hafter
    have hcons : after = '\x7b' :: t.drop (i + 1) := by
      rw [hafter, List.drop_eq_getElem_cons hbrace, hti]
    have hlen : after.length = t.length - i := by
      rw [hafter, List.length_drop]
    have hpos : 0 < after.length := by rw [hcons]; simp
    have hsplit : t.reverse = after.reverse ++ (t.take i).reverse := by
      rw [← List.reverse_append, List.take_append_drop]
    set j' := after.reverse.findIdx (fun c => c = '\x7d') with hj'
    have hrevlen : after.reverse.length = after.length := List.length_reverse _
    by_cases hclose : j' < after.reverse.length
    · have hjj : j = j' := by
        rw [hj, hsplit, List.findIdx_append, if_pos hclose]
      have haj : after.reverse.get ⟨j', hclose⟩ = '\x7d' := by
        have := @List.findIdx_getElem _ (fun c => c = '\x7d') after.reverse hclose
        simpa using this
      simp only [List.get_eq_getElem] at haj
      have hne : j' ≠ after.length - 1 := by
        intro heq
        have h0 : after.reverse.get ⟨j', hclose⟩ = after.get ⟨0, hpos⟩ := by
          simp only [List.get_eq_getElem]
          rw [List.getElem_reverse]
          congr 1
          omega
        have h00 : after.get ⟨0, hpos⟩ = '\x7b' := by simp [hcons]
        simp only [List.get_eq_getElem] at h0 h00
        rw [h0, h00] at haj
        exact absurd haj (by decide)
      have hj'lt : j' < after.length - 1 := by
        rw [hrevlen] at hclose
        omega
      have hdrop : after.reverse.drop j' = (after.take (after.length - j')).reverse :=
        List.drop_reverse
      rw [hdrop, List.reverse_reverse]
      have hnonempty : (after.take (after.length - j')).isEmpty = false := by
        have hs : after.length - j' = (after.length - j' - 1) + 1 := by omega
        rw [hs, hcons, List.take_succ_cons]
        rfl
      rw [hnonempty]
      have hcond : i + j + 1 < t.length := by
        rw [hjj]
        omega
      rw [if_neg (by simp), if_pos hcond]
      have : t.length - j - i = after.length - j' := by
        rw [hjj]
        omega
      rw [this]
    · have hj'le : j' ≤ after.reverse.length := List.findIdx_le_length _
      have hdrop0 : after.reverse.drop j' = [] := List.drop_of_length_le (by omega)
      rw [hdrop0]
      simp only [List.reverse_nil, List.isEmpty_nil, if_true]
      have hjrw : j = (t.take i).reverse.findIdx (fun c => c = '\x7d') +
          after.reverse.length := by
        rw [hj, hsplit, List.findIdx_append, if_neg hclose]
      have : ¬ (i + j + 1 < t.length) := by
        rw [hjrw]
        omega
      rw [if_neg this]
  · have hieq : i = t.length := by omega
    have hdropnil : t.drop i = [] := by
      rw [hieq, List.drop_length]
    rw [hdropnil]
    simp only [List.reverse_nil, List.drop_nil, List.isEmpty_nil, if_true]
    have : ¬ (i + j + 1 < t.length) := by omega
    rw [if_neg this]

theorem fence_equiv (r : List Char)
    (hstrip : pyStrip r = r)
    (hhead : r.take 1 = ['\x7b'])
    (hlast : r.getLast? = some '\x7d') :
    extract_candidate ("```json\n".data ++ r ++ "\n```".data) = some r ∧
    extract_candidate r = some r := by
  obtain ⟨r1, hr1⟩ : ∃ r1, r = r1 ++ ['\x7d'] := List.getLast?_eq_some_iff.mp hlast
  obtain ⟨c, r0, rfl⟩ : ∃ c r0, r = c :: r0 := by
    rcases r with _ | ⟨c, r0⟩
    · simp at hhead
    · exact ⟨c, r0, rfl⟩
  have hc : c = '\x7b' := by simpa using hhead
  subst hc
  have hrev : ('\x7b' :: r0).reverse = '\x7d' :: r1.reverse := by
    rw [hr1, List.reverse_append]
    rfl
  constructor
  · have e1 : "```json\n".data ++ ('\x7b' :: r0) ++ "\n```".data =
        '\x60' :: '\x60' :: '\x60' :: 'j' :: 's' :: 'o' :: 'n' :: '\n' ::
          ('\x7b' :: (r0 ++ "\n```".data)) := by
      rfl
    rw [extract_candidate, e1]
    have e2 : pyStrip ('\x60' :: '\x60' :: '\x60' :: 'j' :: 's' :: 'o' :: 'n' :: '\n' ::
        ('\x7b' :: (r0 ++ "\n```".data))) =
        '\x60' :: '\x60' :: '\x60' :: 'j' :: 's' :: 'o' :: 'n' :: '\n' ::
          ('\x7b' :: (r0 ++ "\n```".data)) := by
      rw [pyStrip]
      rw [List.dropWhile_cons_of_neg (by decide)]
      have e3 : ('\x60' : Char) :: '\x60' :: '\x60' :: 'j' :: 's' :: 'o' :: 'n' :: '\n' ::
          ('\x7b' :: (r0 ++ "\n```".data)) =
          ('\x60' :: '\x60' :: '\x60' :: 'j' :: 's' :: 'o' :: 'n' :: '\n' ::
            ('\x7b' :: (r0 ++ "\n``".data))) ++ ['\x60'] := by
        simp
      rw [e3, List.rdropWhile_concat_neg _ _ _ (by decide), ← e3]
    rw [e2]
    have e4 : stripFenceJsonHead ('\x60' :: '\x60' :: '\x60' :: 'j' :: 's' :: 'o' :: 'n' ::
        '\n' :: ('\x7b' :: (r0 ++ "\n```".data))) = '\x7b' :: (r0 ++ "\n```".data) := by
      rfl
    rw [e4]
    have e5 : stripFenceHead ('\x7b' :: (r0 ++ "\n```".data)) =
        '\x7b' :: (r0 ++ "\n```".data) := by
      rfl
    rw [e5]
    have hrev2 : ('\x7b' :: (r0 ++ "\n```".data)).reverse =
        '\x60' :: '\x60' :: '\x60' :: '\n' :: (('\x7b' :: r0).reverse) := by
      rw [show ('\x7b' :: (r0 ++ "\n```".data)) = ('\x7b' :: r0) ++ "\n```".data from by simp,
        List.reverse_append]
      rfl
    have e6 : stripFenceTail ('\x7b' :: (r0 ++ "\n```".data)) = '\x7b' :: r0 := by
      rw [stripFenceTail, hrev2]
      have : (('\n' :: (('\x7b' :: r0).reverse)).dropWhile isPySpace) =
          ('\x7b' :: r0).reverse := by
        rw [List.dropWhile_cons_of_pos (by decide), hrev,
          List.dropWhile_cons_of_neg (by decide)]
      simp only [this, List.reverse_reverse]
    rw [e6]
    simp
  · rw [extract_candidate, hstrip]
    have e4 : stripFenceJsonHead ('\x7b' :: r0) = '\x7b' :: r0 := rfl
    have e5 : stripFenceHead ('\x7b' :: r0) = '\x7b' :: r0 := rfl
    have e6 : stripFenceTail ('\x7b' :: r0) = '\x7b' :: r0 := by
      rw [stripFenceTail, hrev]
      rfl
    rw [e4, e5, e6]
    simp

/-! ## Claim theorems -/

/-- C1, counterexample: on `"select 1;;"` (no `limit` token, two trailing
semicolons) `ensure_limit` strips both semicolons, not a single one, so
the output differs from the claim's description. -/
theorem C1_counterexample :
    ensure_limit "select 1;;".data ≠ ensure_limit_claimC1 "select 1;;".data := by
  decide

/-- C1, amended: `ensure_limit` strips leading and trailing whitespace and
every trailing semicolon; if the string contains a whole-word
case-insensitive `limit` token it appends exactly one semicolon, else it
appends a space, `LIMIT 100`, and a semicolon. -/
theorem C1_ensure_limit_amended (sql : List Char) :
    ensure_limit sql = ensure_limit_amendedC1 sql := by
  rw [ensure_limit, ensure_limit_amendedC1, hasLimitToken_strip]
  have : " LIMIT ".data ++ (toString DEFAULT_LIMIT).data ++ [';'] = " LIMIT 100;".data := by
    decide
  rw [this]

/-- C2: every SQL string whose lower-cased text contains a denylisted
keyword as a substring anywhere is rejected by `is_safe_select`. -/
theorem C2_blocked_keyword_rejected (sql w : List Char)
    (hwb : w ∈ blocked) (h : w <:+: pyLower sql) :
    is_safe_select sql = false := by
  have hfacts : w ≠ [] ∧ ∀ c ∈ w, isPySpace c = false := by
    simp only [blocked, List.mem_cons, List.not_mem_nil, or_false] at hwb
    rcases hwb with rfl|rfl|rfl|rfl|rfl|rfl|rfl|rfl|rfl|rfl|rfl|rfl <;>
      exact ⟨by decide, by decide⟩
  have hsub : containsSub w (pyLower (pyStrip sql)) = true :=
    (containsSub_iff _ _).mpr (infix_lower_strip w hfacts.1 hfacts.2 sql h)
  have hany : blocked.any (fun word => containsSub word (pyLower (pyStrip sql))) = true :=
    List.any_eq_true.mpr ⟨w, hwb, hsub⟩
  by_cases hsel : "select".data.isPrefixOf (pyLower (pyStrip sql))
  · simp [is_safe_select, hsel, hany]
  · simp [is_safe_select, hsel]

/-- C2, witness: `"select * from t -- dropper"` contains `drop` and is
rejected. -/
theorem C2_blocked_keyword_rejected_witness :
    "drop".data ∈ blocked ∧
    "drop".data <:+: pyLower "select * from t -- dropper".data ∧
    is_safe_select "select * from t -- dropper".data = false :=
  ⟨by decide, by decide,
   C2_blocked_keyword_rejected _ "drop".data (by decide) (by decide)⟩

/-- C3: a `retry` on a query id with no pending entry fails with
`UnknownQueryId`; a `retry` whose repaired SQL executes successfully
deletes the pending entry, so an immediately following `retry` with the
same id fails with `UnknownQueryId`. -/
theorem C3_retry_unknown_and_cleared
    (repairO : List Char → List Char → List Char → List Char → Option PyJson)
    (exec : List Char → Except (List Char) ExecOk)
    (store : Store) (qid : String) :
    (store qid = none → retry repairO exec store qid = (.unknownQueryId, store)) ∧
    (∀ p s r, store qid = some p →
      usableSql (repairO p.schema p.question p.sql p.error) = some s →
      is_safe_select s = true →
      references_only_allowed_table s TABLE_NAME = true →
      exec (ensure_limit s) = .ok r →
      (retry repairO exec store qid).1 = .success (ensure_limit s) r.cols r.rows ∧
      (retry repairO exec store qid).2 qid = none ∧
      retry repairO exec (retry repairO exec store qid).2 qid =
        (.unknownQueryId, (retry repairO exec store qid).2)) := by
  constructor
  · intro h
    simp [retry, h]
  · intro p s r hp hs hsafe htab hexec
    have h1 : retry repairO exec store qid =
        (.success (ensure_limit s) r.cols r.rows,
         fun k => if k = qid then none else store k) := by
      simp [retry, hp, hs, hsafe, htab, hexec]
    refine ⟨by rw [h1], by rw [h1]; simp, ?_⟩
    rw [h1]
    simp [retry]

/-- C3, witness: concrete store, repair oracle and backend exercising both
parts. -/
theorem C3_retry_unknown_and_cleared_witness :
    wStore "q_1" = some wPending ∧
    usableSql (wRepair wPending.schema wPending.question wPending.sql wPending.error) =
      some goodSql ∧
    is_safe_select goodSql = true ∧
    references_only_allowed_table goodSql TABLE_NAME = true ∧
    wExecOk (ensure_limit goodSql) = .ok ⟨["x".data], [[.num 1]]⟩ ∧
    ((retry wRepair wExecOk wStore "q_1").1 =
        .success (ensure_limit goodSql) ["x".data] [[.num 1]] ∧
      (retry wRepair wExecOk wStore "q_1").2 "q_1" = none ∧
      retry wRepair wExecOk (retry wRepair wExecOk wStore "q_1").2 "q_1" =
        (.unknownQueryId, (retry wRepair wExecOk wStore "q_1").2)) :=
  ⟨rfl, rfl, by decide, by decide, rfl,
   (C3_retry_unknown_and_cleared wRepair wExecOk wStore "q_1").2 wPending goodSql
     ⟨["x".data], [[.num 1]]⟩ rfl rfl (by decide) (by decide) rfl⟩

/-- C4: when the repair output lacks a usable `sql` string or the repaired
SQL fails a guardrail, the retry call fails and the pending entry is left
unchanged and still available. -/
theorem C4_failed_repair_preserves_pending
    (repairO : List Char → List Char → List Char → List Char → Option PyJson)
    (exec : List Char → Except (List Char) ExecOk)
    (store : Store) (qid : String) (p : Pending)
    (hp : store qid = some p)
    (h : usableSql (repairO p.schema p.question p.sql p.error) = none ∨
      ∃ s, usableSql (repairO p.schema p.question p.sql p.error) = some s ∧
        (is_safe_select s = false ∨
          (is_safe_select s = true ∧
            references_only_allowed_table s TABLE_NAME = false))) :
    (retry repairO exec store qid).2 = store ∧
    (retry repairO exec store qid).2 qid = some p ∧
    ((retry repairO exec store qid).1 = .invalidRepairSql ∨
     (retry repairO exec store qid).1 = .unsafeRepairSql ∨
     (retry repairO exec store qid).1 = .wrongTableRepairSql) := by
  rcases h with h | ⟨s, hs, h⟩
  · have : retry repairO exec store qid = (.invalidRepairSql, store) := by
      simp [retry, hp, h]
    rw [this]; exact ⟨rfl, hp, Or.inl rfl⟩
  · rcases h with h | ⟨h1, h2⟩
    · have : retry repairO exec store qid = (.unsafeRepairSql, store) := by
        simp [retry, hp, hs, h]
      rw [this]; exact ⟨rfl, hp, Or.inr (Or.inl rfl)⟩
    · have : retry repairO exec store qid = (.wrongTableRepairSql, store) := by
        simp [retry, hp, hs, h1, h2]
      rw [this]; exact ⟨rfl, hp, Or.inr (Or.inr rfl)⟩

/-- C4, witness: a repair oracle with no usable `sql` leaves the entry in
place. -/
theorem C4_failed_repair_preserves_pending_witness :
    wStore "q_1" = some wPending ∧
    usableSql (wRepairNone wPending.schema wPending.question wPending.sql wPending.error) =
      none ∧
    ((retry wRepairNone wExecOk wStore "q_1").2 = wStore ∧
      (retry wRepairNone wExecOk wStore "q_1").2 "q_1" = some wPending ∧
      ((retry wRepairNone wExecOk wStore "q_1").1 = .invalidRepairSql ∨
       (retry wRepairNone wExecOk wStore "q_1").1 = .unsafeRepairSql ∨
       (retry wRepairNone wExecOk wStore "q_1").1 = .wrongTableRepairSql)) :=
  ⟨rfl, rfl,
   C4_failed_repair_preserves_pending wRepairNone wExecOk wStore "q_1" wPending rfl
     (Or.inl rfl)⟩

/-- C5: a first-attempt SQL that passes both guardrails but fails at
execution yields `ok: False`, `retryable: True`, and creates a pending
entry holding the question, the normalized SQL, the backend error and the
schema text. -/
theorem C5_exec_failure_creates_pending
    (genO : List Char → List Char → Option PyJson)
    (exec : List Char → Except (List Char) ExecOk)
    (store : Store) (qid : String) (schema_text question s e : List Char)
    (hgen : usableSql (genO schema_text question) = some s)
    (hsafe : is_safe_select s = true)
    (htab : references_only_allowed_table s TABLE_NAME = true)
    (hexec : exec (ensure_limit s) = .error e) :
    (query genO exec store qid schema_text question).1 =
      .execFail (ensure_limit s) e ∧
    (query genO exec store qid schema_text question).1.okField = false ∧
    (query genO exec store qid schema_text question).1.retryableField = true ∧
    (query genO exec store qid schema_text question).2 qid =
      some ⟨question, ensure_limit s, e, schema_text⟩ := by
  have h1 : query genO exec store qid schema_text question =
      (.execFail (ensure_limit s) e,
       fun k => if k = qid then some ⟨question, ensure_limit s, e, schema_text⟩
                else store k) := by
    simp [query, hgen, hsafe, htab, hexec]
  rw [h1]
  exact ⟨rfl, rfl, rfl, by simp⟩

/-- C5, witness: a failing backend turns a guardrail-passing generation
into a stored pending entry. -/
theorem C5_exec_failure_creates_pending_witness :
    usableSql (wGen "Table: ds_active".data "show rows".data) = some goodSql ∧
    is_safe_select goodSql = true ∧
    references_only_allowed_table goodSql TABLE_NAME = true ∧
    wExecErr (ensure_limit goodSql) = .error "Binder Error: column".data ∧
    ((query wGen wExecErr wEmpty "q_1" "Table: ds_active".data "show rows".data).1 =
        .execFail (ensure_limit goodSql) "Binder Error: column".data ∧
      (query wGen wExecErr wEmpty "q_1" "Table: ds_active".data "show rows".data).1.okField =
        false ∧
      (query wGen wExecErr wEmpty "q_1" "Table: ds_active".data
        "show rows".data).1.retryableField = true ∧
      (query wGen wExecErr wEmpty "q_1" "Table: ds_active".data "show rows".data).2 "q_1" =
        some ⟨"show rows".data, ensure_limit goodSql, "Binder Error: column".data,
          "Table: ds_active".data⟩) :=
  ⟨rfl, by decide, by decide, rfl,
   C5_exec_failure_creates_pending wGen wExecErr wEmpty "q_1" "Table: ds_active".data
     "show rows".data goodSql "Binder Error: column".data rfl (by decide) (by decide) rfl⟩

/-- C6: every SQL string whose trimmed, lower-cased text does not start
with `select` is rejected by `is_safe_select`. -/
theorem C6_non_select_rejected (sql : List Char)
    (h : ¬ ("select".data <+: pyLower (pyStrip sql))) :
    is_safe_select sql = false := by
  have hb : "select".data.isPrefixOf (pyLower (pyStrip sql)) = false := by
    rw [← Bool.not_eq_true, List.isPrefixOf_iff_prefix]
    exact h
  simp [is_safe_select, hb]

/-- C6, witness: `"drop table x"` does not start with `select` and is
rejected. -/
theorem C6_non_select_rejected_witness :
    ¬ ("select".data <+: pyLower (pyStrip "drop table x".data)) ∧
    is_safe_select "drop table x".data = false :=
  ⟨by decide, C6_non_select_rejected "drop table x".data (by decide)⟩

/-- C7, counterexample: on the empty string `ensure_limit` is not
idempotent (`" LIMIT 100;"` renormalizes to `"LIMIT 100;"`). -/
theorem C7_counterexample :
    ensure_limit (ensure_limit "".data) ≠ ensure_limit "".data := by
  decide

/-- C7, amended: `ensure_limit` is idempotent on every SQL string whose
whitespace-and-trailing-semicolon-stripped text is non-empty (every
statement that passed the guardrails qualifies). -/
theorem C7_idempotent_amended (sql : List Char)
    (hne : rstripSemi (pyStrip sql) ≠ []) :
    ensure_limit (ensure_limit sql) = ensure_limit sql := by
  have hLIT : " LIMIT ".data ++ (toString DEFAULT_LIMIT).data ++ [';'] =
      " LIMIT 100".data ++ [';'] := by decide
  set t := rstripSemi (pyStrip sql) with ht
  obtain ⟨h0, t0, ht0⟩ : ∃ h0 t0, t = h0 :: t0 := by
    rcases h : t with _ | ⟨h0, t0⟩
    · exact absurd h hne
    · exact ⟨h0, t0, rfl⟩
  have hpre : t <+: sql.dropWhile isPySpace := by
    have p1 : t <+: pyStrip sql := by
      rw [ht, rstripSemi]; exact List.rdropWhile_prefix _ _
    have p2 : pyStrip sql <+: sql.dropWhile isPySpace := by
      rw [pyStrip]; exact List.rdropWhile_prefix _ _
    exact p1.trans p2
  obtain ⟨r, hr⟩ := hpre
  have hu : sql.dropWhile isPySpace = h0 :: (t0 ++ r) := by
    rw [← hr, ht0, List.cons_append]
  have hhead : isPySpace h0 = false := by
    have hw : sql.dropWhile isPySpace ≠ [] := by rw [hu]; simp
    have := List.head_dropWhile_not isPySpace sql hw
    simpa [hu] using this
  have hstrip : ∀ z : List Char, (t ++ z).dropWhile isPySpace = t ++ z := by
    intro z
    rw [ht0, List.cons_append, List.dropWhile_cons, hhead]
    simp
  have hsemi : rstripSemi t = t := by
    rw [ht, rstripSemi, rstripSemi, List.rdropWhile_idempotent]
  by_cases hlim : hasLimitToken t = true
  · have he : ensure_limit sql = t ++ [';'] := by
      rw [ensure_limit, ← ht, if_pos hlim]
    rw [he, ensure_limit]
    have h1 : pyStrip (t ++ [';']) = t ++ [';'] := by
      rw [pyStrip, hstrip [';'], List.rdropWhile_concat_neg _ _ _ (by decide)]
    have h2 : rstripSemi (t ++ [';']) = t := by
      rw [rstripSemi, List.rdropWhile_concat_pos _ _ _ (by decide), ← rstripSemi, hsemi]
    rw [h1, h2, if_pos hlim]
  · have he : ensure_limit sql = t ++ (" LIMIT 100".data ++ [';']) := by
      rw [ensure_limit, ← ht, if_neg hlim, hLIT]
    rw [he, ensure_limit]
    have hassoc : t ++ (" LIMIT 100".data ++ [';']) =
        (t ++ " LIMIT 100".data) ++ [';'] := by rw [List.append_assoc]
    have h1 : pyStrip (t ++ (" LIMIT 100".data ++ [';'])) =
        t ++ (" LIMIT 100".data ++ [';']) := by
      rw [pyStrip, hstrip _, hassoc, List.rdropWhile_concat_neg _ _ _ (by decide),
        List.append_assoc]
    have h00 : t ++ " LIMIT 100".data = (t ++ " LIMIT 10".data) ++ ['0'] := by
      rw [List.append_assoc]; rfl
    have h2 : rstripSemi (t ++ (" LIMIT 100".data ++ [';'])) =
        t ++ " LIMIT 100".data := by
      rw [hassoc, rstripSemi, List.rdropWhile_concat_pos _ _ _ (by decide),
        h00, List.rdropWhile_concat_neg _ _ _ (by decide), ← h00]
    have h3 : hasLimitToken (t ++ " LIMIT 100".data) = true :=
      hasLimitAux_append_LIMIT t false
    rw [h1, h2, if_pos h3, List.append_assoc]

/-- C7, witness: `"select 1"` strips to a non-empty text and renormalizes
to itself. -/
theorem C7_idempotent_amended_witness :
    rstripSemi (pyStrip "select 1".data) ≠ [] ∧
    ensure_limit (ensure_limit "select 1".data) = ensure_limit "select 1".data :=
  ⟨by decide, C7_idempotent_amended "select 1".data (by decide)⟩

/-- C8, counterexample: on `see {"a":1} tail}` (braces escaped in the
source) the greedy `re.search(r"\x7b.*\x7d", ...)` span runs to the last
brace, so `extract_json` does not parse the first balanced span the claim
describes. -/
theorem C8_counterexample :
    extract_candidate "see \x7b\"a\":1\x7d tail\x7d".data ≠
      extract_candidate_claimC8 "see \x7b\"a\":1\x7d tail\x7d".data := by
  decide

/-- C8, amended: a JSON object wrapped in ```` ```json ... ``` ````
fences yields the same parsed object as the raw text; when the
fence-stripped text does not open with `\x7b`, the candidate handed to
`json.loads` is the span from the first `\x7b` to the last `\x7d` of the
text (the greedy match), and extraction fails when no such span exists. -/
theorem C8_extract_json_amended :
    (∀ r : List Char, pyStrip r = r → r.take 1 = ['\x7b'] →
      r.getLast? = some '\x7d' →
      ∀ parse : List Char → Option PyJson,
        extract_json parse ("```json\n".data ++ r ++ "\n```".data) =
          extract_json parse r ∧
        extract_candidate ("```json\n".data ++ r ++ "\n```".data) = some r) ∧
    (∀ text : List Char,
      (stripFenceTail (stripFenceHead (stripFenceJsonHead (pyStrip text)))).take 1 ≠
          ['\x7b'] →
        extract_candidate text =
          spanFirstToLastSpec
            (stripFenceTail (stripFenceHead (stripFenceJsonHead (pyStrip text)))) ∧
        (spanFirstToLastSpec
            (stripFenceTail (stripFenceHead (stripFenceJsonHead (pyStrip text)))) = none →
          ∀ parse : List Char → Option PyJson, extract_json parse text = none)) := by
  constructor
  · intro r h1 h2 h3 parse
    obtain ⟨hf, hr⟩ := fence_equiv r h1 h2 h3
    exact ⟨by rw [extract_json, extract_json, hf, hr], hf⟩
  · intro text h
    have hc : extract_candidate text =
        braceSpan (stripFenceTail (stripFenceHead (stripFenceJsonHead (pyStrip text)))) := by
      rw [extract_candidate, if_neg h]
    constructor
    · rw [hc, braceSpan_eq_spec]
    · intro hnone parse
      rw [extract_json, hc, braceSpan_eq_spec, hnone]
      rfl

/-- C8, witness: the fenced and raw forms of `rawJson` extract alike, and
`noObjText` (no braces) is characterized by the greedy span, which is
absent. -/
theorem C8_extract_json_amended_witness :
    (pyStrip rawJson = rawJson ∧ rawJson.take 1 = ['\x7b'] ∧
      rawJson.getLast? = some '\x7d' ∧
      extract_json (fun _ => none) ("```json\n".data ++ rawJson ++ "\n```".data) =
        extract_json (fun _ => none) rawJson) ∧
    ((stripFenceTail (stripFenceHead (stripFenceJsonHead (pyStrip noObjText)))).take 1 ≠
        ['\x7b'] ∧
      extract_candidate noObjText =
        spanFirstToLastSpec
          (stripFenceTail (stripFenceHead (stripFenceJsonHead (pyStrip noObjText))))) :=
  ⟨⟨by decide, by decide, by decide,
    (C8_extract_json_amended.1 rawJson (by decide) (by decide) (by decide)
      (fun _ => none)).1⟩,
   ⟨by decide, (C8_extract_json_amended.2 noObjText (by decide)).1⟩⟩

/-- C9, counterexample: metadata content `[1]` is valid JSON but not an
object; `meta.get("source")` then raises `AttributeError`, so
`get_active_schema` fails instead of degrading to the heuristic. -/
theorem C9_counterexample :
    get_active_schema
      (fun s => if s = "[1]".data then some (.arr [.num 1]) else none)
      ⟨some "[1]".data, false⟩ [] 0 = .error .attributeError := by
  rfl

/-- C9, amended: when the metadata file is absent or its content fails
JSON decoding, `get_active_schema` succeeds and `source`/`filename` come
from the presence heuristic; content decoding to a non-object JSON value,
however, makes it raise. -/
theorem C9_get_active_schema_amended (parse : List Char → Option PyJson)
    (fs : DbFiles) (columns : List (List Char × List Char)) (row_count : Nat)
    (h : fs.metaContent = none ∨ ∃ c, fs.metaContent = some c ∧ parse c = none) :
    get_active_schema parse fs columns row_count =
      .ok ⟨TABLE_NAME, row_count,
           .str (if fs.activeCsvExists then "upload".data else "demo".data),
           .str (if fs.activeCsvExists then ACTIVE_CSV_NAME else SAMPLE_CSV_NAME),
           columns⟩ := by
  obtain ⟨mc, csv⟩ := fs
  have hm : read_active_metadata parse ⟨mc, csv⟩ = .obj [] := by
    rcases h with h | ⟨c, hc, hp⟩
    · simp only [read_active_metadata] at *
      rw [show mc = none from h]
    · simp only [read_active_metadata] at *
      rw [show mc = some c from hc]
      simp [hp]
  rw [get_active_schema, hm]
  cases csv <;> rfl

/-- C9, witness: an absent metadata file with an existing uploaded CSV
resolves to the upload heuristic. -/
theorem C9_get_active_schema_amended_witness :
    (⟨none, true⟩ : DbFiles).metaContent = none ∧
    get_active_schema (fun _ => none) ⟨none, true⟩ [] 0 =
      .ok ⟨TABLE_NAME, 0, .str "upload".data, .str ACTIVE_CSV_NAME, []⟩ :=
  ⟨rfl, C9_get_active_schema_amended (fun _ => none) ⟨none, true⟩ [] 0 (Or.inl rfl)⟩

/-- C10: a first-attempt guardrail failure returns `ok: False`,
`retryable: True` but stores nothing, so a retry with that id fails with
`UnknownQueryId`. -/
theorem C10_guardrail_failure_not_stored
    (genO : List Char → List Char → Option PyJson)
    (repairO : List Char → List Char → List Char → List Char → Option PyJson)
    (exec : List Char → Except (List Char) ExecOk)
    (store : Store) (qid : String) (schema_text question s : List Char)
    (hgen : usableSql (genO schema_text question) = some s)
    (hfresh : store qid = none)
    (h : is_safe_select s = false ∨
      (is_safe_select s = true ∧
        references_only_allowed_table s TABLE_NAME = false)) :
    ((query genO exec store qid schema_text question).1 = .unsafeSqlFail s ∨
     (query genO exec store qid schema_text question).1 = .wrongTableFail s) ∧
    (query genO exec store qid schema_text question).1.okField = false ∧
    (query genO exec store qid schema_text question).1.retryableField = true ∧
    (query genO exec store qid schema_text question).2 = store ∧
    retry repairO exec (query genO exec store qid schema_text question).2 qid =
      (.unknownQueryId, (query genO exec store qid schema_text question).2) := by
  rcases h with h | ⟨h1, h2⟩
  · have hq : query genO exec store qid schema_text question =
        (.unsafeSqlFail s, store) := by simp [query, hgen, h]
    rw [hq]
    exact ⟨Or.inl rfl, rfl, rfl, rfl, by simp [retry, hfresh]⟩
  · have hq : query genO exec store qid schema_text question =
        (.wrongTableFail s, store) := by simp [query, hgen, h1, h2]
    rw [hq]
    exact ⟨Or.inr rfl, rfl, rfl, rfl, by simp [retry, hfresh]⟩

/-- C10, witness: a generation containing `drop` fails the guardrail,
stores nothing, and the follow-up retry reports an unknown id. -/
theorem C10_guardrail_failure_not_stored_witness :
    usableSql (wGenUnsafe "Table: ds_active".data "wipe it".data) =
      some "drop table ds_active".data ∧
    wEmpty "q_1" = none ∧
    is_safe_select "drop table ds_active".data = false ∧
    (((query wGenUnsafe wExecOk wEmpty "q_1" "Table: ds_active".data "wipe it".data).1 =
        .unsafeSqlFail "drop table ds_active".data ∨
      (query wGenUnsafe wExecOk wEmpty "q_1" "Table: ds_active".data "wipe it".data).1 =
        .wrongTableFail "drop table ds_active".data) ∧
      (query wGenUnsafe wExecOk wEmpty "q_1" "Table: ds_active".data
        "wipe it".data).1.okField = false ∧
      (query wGenUnsafe wExecOk wEmpty "q_1" "Table: ds_active".data
        "wipe it".data).1.retryableField = true ∧
      (query wGenUnsafe wExecOk wEmpty "q_1" "Table: ds_active".data "wipe it".data).2 =
        wEmpty ∧
      retry wRepair wExecOk
          (query wGenUnsafe wExecOk wEmpty "q_1" "Table: ds_active".data "wipe it".data).2
          "q_1" =
        (.unknownQueryId,
         (query wGenUnsafe wExecOk wEmpty "q_1" "Table: ds_active".data
           "wipe it".data).2)) :=
  ⟨rfl, rfl, by decide,
   C10_guardrail_failure_not_stored wGenUnsafe wRepair wExecOk wEmpty "q_1"
     "Table: ds_active".data "wipe it".data "drop table ds_active".data rfl rfl
     (Or.inl (by decide))⟩

end NL2SQL
